import Mathlib

/-!
Shallow embedding of the tactical-rescue simulation engine (`app.py`) and
proofs about it.  Positions are integer pairs, wall state is a per-cell
record of four boolean flags, entities are a closed sum, and the mutable
dictionaries of the source become explicit functional state that each
operation threads.
-/

set_option maxRecDepth 4000

namespace RescueSim

/-- Grid position `(x, y)`; the source uses Python int tuples. -/
abbrev Pos := Int × Int

/-- Disturbance severity: `'mild'`, `'active'`, `'grave'` in the source. -/
inductive Severity where
  | mild
  | active
  | grave
deriving DecidableEq, Repr

/-- The entity variants of the source (`Hostage`, `FalseAlarm`, `Gate`,
`Disturbance`, `TacticalAgent`), each carrying its `unique_id` and its
mutable fields. -/
inductive Entity where
  | hostage (id : Nat)
  | falseAlarm (id : Nat)
  | gate (id : Nat) (isOpen : Bool)
  | disturbance (id : Nat) (sev : Severity) (turns : Nat)
  | agent (id : Nat)
deriving DecidableEq, Repr

def Entity.isAgent : Entity → Bool
  | .agent _ => true
  | _ => false

def Entity.isHostage : Entity → Bool
  | .hostage _ => true
  | _ => false

def Entity.isFalseAlarm : Entity → Bool
  | .falseAlarm _ => true
  | _ => false

def Entity.isGate : Entity → Bool
  | .gate _ _ => true
  | _ => false

def Entity.isDisturb : Entity → Bool
  | .disturbance _ _ _ => true
  | _ => false

def Entity.eid : Entity → Nat
  | .hostage i => i
  | .falseAlarm i => i
  | .gate i _ => i
  | .disturbance i _ _ => i
  | .agent i => i

/-- Python `isinstance(c, Gate) and not c.is_open` from `get_available_cell`. -/
def Entity.isClosedGate : Entity → Bool
  | .gate _ o => !o
  | _ => false

/-- Per-cell wall flags `{'top', 'left', 'bottom', 'right'}`. -/
structure WallFlags where
  top : Bool
  left : Bool
  bottom : Bool
  right : Bool
deriving DecidableEq, Repr

/-- The model's `self.walls` dictionary: as in Python, `walls.get(pos, {})`
followed by `.get(flag)` yields a falsy value at a missing key. -/
abbrev WallMap := Pos → Option WallFlags

def wallTop (walls : WallMap) (p : Pos) : Bool :=
  match walls p with
  | some w => w.top
  | none => false

def wallLeft (walls : WallMap) (p : Pos) : Bool :=
  match walls p with
  | some w => w.left
  | none => false

def wallBottom (walls : WallMap) (p : Pos) : Bool :=
  match walls p with
  | some w => w.bottom
  | none => false

def wallRight (walls : WallMap) (p : Pos) : Bool :=
  match walls p with
  | some w => w.right
  | none => false

/-- The directional wall test shared by `can_move_to` and
`has_wall_between`: the flag on `pos1` facing `pos2`. -/
def wallBlocks (walls : WallMap) (pos1 pos2 : Pos) : Bool :=
  let dx := pos2.1 - pos1.1
  let dy := pos2.2 - pos1.2
  (dx == 1 && wallRight walls pos1) || (dx == -1 && wallLeft walls pos1) ||
    (dy == 1 && wallBottom walls pos1) || (dy == -1 && wallTop walls pos1)

/-- Embeds `RescueModel.has_wall_between`. -/
def has_wall_between (walls : WallMap) (pos1 pos2 : Pos) : Bool :=
  wallBlocks walls pos1 pos2

/-- Embeds `RescueModel.can_move_to`: `contents` is `get_contents_at`.  The gate
check inspects `gates[0]`, the first `Gate` in the destination's contents. -/
def can_move_to (width height : Int) (walls : WallMap)
    (contents : Pos → List Entity) (fromPos toPos : Pos) : Bool :=
  if !(0 ≤ toPos.1 && toPos.1 < width && 0 ≤ toPos.2 && toPos.2 < height) then
    false
  else if wallBlocks walls fromPos toPos then
    false
  else
    match ((contents toPos).filter Entity.isGate).head? with
    | some (.gate _ false) => false
    | _ => true

/-- Clearing the flag on `pos1` facing `pos2` (first half of
`break_wall_between`). -/
def clearFacing (dx dy : Int) (w : WallFlags) : WallFlags :=
  if dx == 1 then { w with right := false }
  else if dx == -1 then { w with left := false }
  else if dy == 1 then { w with bottom := false }
  else if dy == -1 then { w with top := false }
  else w

/-- Clearing the flag on `pos2` facing back toward `pos1` (second half of
`break_wall_between`). -/
def clearOpposite (dx dy : Int) (w : WallFlags) : WallFlags :=
  if dx == 1 then { w with left := false }
  else if dx == -1 then { w with right := false }
  else if dy == 1 then { w with top := false }
  else if dy == -1 then { w with bottom := false }
  else w

/-- Embeds `RescueModel.break_wall_between`: updates `walls[pos1]` when present,
then `walls[pos2]` when present, exactly as the two guarded mutations in
the source. -/
def break_wall_between (walls : WallMap) (pos1 pos2 : Pos) : WallMap :=
  let dx := pos2.1 - pos1.1
  let dy := pos2.2 - pos1.2
  let step1 : WallMap := fun p =>
    if p = pos1 then (walls p).map (clearFacing dx dy) else walls p
  fun p => if p = pos2 then (step1 p).map (clearOpposite dx dy) else step1 p

/-! ### Snapshot recorder (`get_grid_state`) -/

/-- The per-cell value written into `grid_data` by `get_grid_state`:
the `if`/`elif` chain over the cell's contents, with the entry-point
check coming **after** the gate check as in the source. -/
def cellCode (contents : List Entity) (isEntry : Bool) : Nat :=
  if contents.any Entity.isAgent then 2
  else if contents.any Entity.isHostage then 3
  else if contents.any Entity.isDisturb then
    match (contents.filter Entity.isDisturb).head? with
    | some (.disturbance _ .grave _) => 8
    | some (.disturbance _ .active _) => 5
    | _ => 4
  else if contents.any Entity.isFalseAlarm then 7
  else if contents.any Entity.isGate then
    match (contents.filter Entity.isGate).head? with
    | some (.gate _ true) => 9
    | _ => 10
  else if isEntry then 6
  else 0

/-! ### Counters and the hazard engine -/

/-- The model-wide counters touched by agents and explosions. -/
structure Stats where
  hostages_rescued : Nat
  hostages_lost : Nat
  structural_damage : Nat
  false_alarms_investigated : Nat
deriving DecidableEq, Repr

/-- Embeds `RescueModel.handle_explosion` at one cell: `contents` is the live
cell list at call time.  Damage goes up by one, each hostage present
counts as lost and is removed, and every disturbance is removed. -/
def handle_explosion (contents : List Entity) (s : Stats) :
    List Entity × Stats :=
  let s1 := { s with structural_damage := s.structural_damage + 1 }
  let s2 := { s1 with hostages_lost :=
    s1.hostages_lost + (contents.filter Entity.isHostage).length }
  (contents.filter (fun e => !(e.isHostage || e.isDisturb)), s2)

/-- The ids of the disturbances in a cell list, in list order: the
snapshot `[c for c in contents if isinstance(c, Disturbance)]` that the
advance loop iterates over. -/
def disturbIds (contents : List Entity) : List Nat :=
  contents.filterMap fun e =>
    match e with
    | .disturbance i _ _ => some i
    | _ => none

/-- The current `(severity, turns_in_current_state)` of disturbance `i`
if it is still in the cell list. -/
def lookupDisturb (contents : List Entity) (i : Nat) :
    Option (Severity × Nat) :=
  (contents.filterMap fun e =>
    match e with
    | .disturbance j s t => if j = i then some (s, t) else none
    | _ => none).head?

/-- Overwrite disturbance `i`'s mutable fields inside the cell list. -/
def setDisturb (contents : List Entity) (i : Nat) (sev : Severity)
    (t : Nat) : List Entity :=
  contents.map fun e =>
    match e with
    | .disturbance j s u =>
      if j = i then .disturbance i sev t else .disturbance j s u
    | e => e

/-- Object store for disturbances that were removed from the cell list
but whose Python objects the advance loop still holds and mutates. -/
abbrev Ghosts := Nat → Option (Severity × Nat)

/-- Read disturbance `i`'s state: from the live cell list if present,
otherwise from the ghost store. -/
def readDisturb (contents : List Entity) (ghosts : Ghosts) (i : Nat) :
    Option (Severity × Nat) :=
  match lookupDisturb contents i with
  | some st => some st
  | none => ghosts i

/-- Write disturbance `i`'s state back: into the live list if present,
otherwise into the ghost store. -/
def writeDisturb (contents : List Entity) (ghosts : Ghosts) (i : Nat)
    (sev : Severity) (t : Nat) : List Entity × Ghosts :=
  match lookupDisturb contents i with
  | some _ => (setDisturb contents i sev t, ghosts)
  | none => (contents, fun j => if j = i then some (sev, t) else ghosts j)

/-- When an explosion removes disturbances from the live list their
final object states move to the ghost store. -/
def ghostsOfRemoved (contents : List Entity) (ghosts : Ghosts) : Ghosts :=
  fun j =>
    match lookupDisturb contents j with
    | some st => some st
    | none => ghosts j

/-- The inner advance loop of `advance_disturbances` for one cell:
walk the snapshot `ids`, increment each disturbance's counter, promote
mild→active at 4 turns, promote active→grave at 6 turns and explode. -/
def advanceLoop (ids : List Nat) (contents : List Entity)
    (ghosts : Ghosts) (s : Stats) : List Entity × Stats :=
  match ids with
  | [] => (contents, s)
  | i :: rest =>
    match readDisturb contents ghosts i with
    | none => advanceLoop rest contents ghosts s
    | some (sev, t) =>
      let t1 := t + 1
      if sev = .mild ∧ 4 ≤ t1 then
        let (c1, g1) := writeDisturb contents ghosts i .active 0
        advanceLoop rest c1 g1 s
      else if sev = .active ∧ 6 ≤ t1 then
        let (c1, g1) := writeDisturb contents ghosts i .grave t1
        let (c2, s2) := handle_explosion c1 s
        let g2 := ghostsOfRemoved c1 g1
        advanceLoop rest c2 g2 s2
      else
        let (c1, g1) := writeDisturb contents ghosts i sev t1
        advanceLoop rest c1 g1 s

/-- The whole per-cell escalation pass of `advance_disturbances`. -/
def advanceCellPass (contents : List Entity) (s : Stats) :
    List Entity × Stats :=
  advanceLoop (disturbIds contents) contents (fun _ => none) s

/-- Embeds `RescueModel.get_available_cell`, with the infinite retry loop made
explicit: `draws` is the (finite prefix of the) stream of random cell
draws, and `none` means the loop has consumed every modelled draw
without returning — i.e. it has not terminated within them. -/
def get_available_cell (contents : Pos → List Entity) :
    List Pos → Option Pos
  | [] => none
  | p :: rest =>
    if (contents p).any Entity.isClosedGate then
      get_available_cell contents rest
    else some p

/-! ### World state and the agent decision procedure -/

/-- State of a `TacticalAgent`: position (held by the Mesa grid in the
source), per-turn `action_points`, and `carrying_hostage`. -/
structure AgentState where
  id : Nat
  pos : Pos
  action_points : Nat
  carrying_hostage : Bool
deriving DecidableEq, Repr

/-- The model state an agent's step reads and writes.  `cellContents` is
the `cell_contents` defaultdict (items only, never agents); `agents`
holds the grid positions of the other agents.  The stepping agent's own
presence in the Mesa grid never influences any query its step makes
(every content search looks for items, not agents), so it is carried
separately in `AgentState`. -/
structure World where
  width : Int
  height : Int
  walls : WallMap
  cellContents : Pos → List Entity
  entry_points : List Pos
  agents : List (Nat × Pos)
  stats : Stats
  nextId : Nat

/-- Embeds `RescueModel.get_contents_at`: Mesa grid occupants (agents) followed
by the `cell_contents` items. -/
def contentsAt (w : World) (p : Pos) : List Entity :=
  (w.agents.filterMap fun ap =>
    if ap.2 = p then some (Entity.agent ap.1) else none) ++ w.cellContents p

/-- Mesa `grid.get_neighborhood(pos, moore=False, include_center=False)`:
the in-bounds orthogonal neighbours. -/
def neighbors (width height : Int) (p : Pos) : List Pos :=
  [(p.1 - 1, p.2), (p.1, p.2 - 1), (p.1, p.2 + 1), (p.1 + 1, p.2)].filter
    fun q => 0 ≤ q.1 && q.1 < width && 0 ≤ q.2 && q.2 < height

/-- The action tags of `TacticalAgent.step`; targets are entity ids or
destination cells. -/
inductive Action where
  | move (dest : Pos)
  | rescue (hid : Nat)
  | investigate (fid : Nat)
  | dropoff
  | contain (did : Nat)
  | openGate (gid : Nat)
  | closeGate (gid : Nat)
  | breakWall (dest : Pos)
deriving DecidableEq, Repr

instance : Inhabited Action := ⟨Action.dropoff⟩

/-- The cost of moving into `np`: 2 if a disturbance is there, else 1. -/
def moveCostTo (w : World) (np : Pos) : Nat :=
  if (contentsAt w np).any Entity.isDisturb then 2 else 1

/-- Candidate block 1 of `TacticalAgent.step`: moves to reachable
neighbours, cost 2 into a disturbance cell, else 1, filtered by the
remaining budget. -/
def moveActions (w : World) (a : AgentState) : List (Action × Nat) :=
  (neighbors w.width w.height a.pos).filterMap fun np =>
    if can_move_to w.width w.height w.walls (contentsAt w) a.pos np then
      if moveCostTo w np ≤ a.action_points then
        some (.move np, moveCostTo w np)
      else none
    else none

/-- Candidate block 2: rescue the first hostage at the current cell. -/
def rescueActions (contents : List Entity) (a : AgentState) :
    List (Action × Nat) :=
  if a.carrying_hostage then []
  else
    match contents.find? Entity.isHostage with
    | some h => if 2 ≤ a.action_points then [(.rescue h.eid, 2)] else []
    | none => []

/-- Candidate block 3: investigate the first false alarm here. -/
def investigateActions (contents : List Entity) (a : AgentState) :
    List (Action × Nat) :=
  match contents.find? Entity.isFalseAlarm with
  | some f => if 1 ≤ a.action_points then [(.investigate f.eid, 1)] else []
  | none => []

/-- Candidate block 4: drop a carried hostage off at an entry point. -/
def dropoffActions (w : World) (a : AgentState) : List (Action × Nat) :=
  if a.carrying_hostage ∧ a.pos ∈ w.entry_points ∧ 1 ≤ a.action_points then
    [(.dropoff, 1)]
  else []

/-- Candidate block 5: contain the first disturbance here (mild costs 1,
active costs 2, grave offers nothing). -/
def containActions (contents : List Entity) (a : AgentState) :
    List (Action × Nat) :=
  match contents.find? Entity.isDisturb with
  | some (.disturbance i .mild _) =>
    if 1 ≤ a.action_points then [(.contain i, 1)] else []
  | some (.disturbance i .active _) =>
    if 2 ≤ a.action_points then [(.contain i, 2)] else []
  | _ => []

/-- Candidate block 6: toggle the first gate here. -/
def gateActions (contents : List Entity) (a : AgentState) :
    List (Action × Nat) :=
  match contents.find? Entity.isGate with
  | some (.gate i o) =>
    if 1 ≤ a.action_points then
      [(if o then .closeGate i else .openGate i, 1)]
    else []
  | _ => []

/-- Candidate block 7: break a wall toward any neighbour behind one. -/
def breakActions (w : World) (a : AgentState) : List (Action × Nat) :=
  if 2 ≤ a.action_points then
    (neighbors w.width w.height a.pos).filterMap fun np =>
      if has_wall_between w.walls a.pos np then some (.breakWall np, 2)
      else none
  else []

/-- The list `possible_actions` as assembled, in order, by `TacticalAgent.step`. -/
def possible_actions (w : World) (a : AgentState) : List (Action × Nat) :=
  moveActions w a ++ rescueActions (contentsAt w a.pos) a ++
    investigateActions (contentsAt w a.pos) a ++ dropoffActions w a ++
    containActions (contentsAt w a.pos) a ++
    gateActions (contentsAt w a.pos) a ++ breakActions w a

/-- Embeds `RescueModel.remove_entity` on the contents map (Python removes the
first list element equal to the object; ids are unique). -/
def removeEntity (cc : Pos → List Entity) (p : Pos) (i : Nat) :
    Pos → List Entity :=
  fun q => if q = p then (cc q).eraseP (fun e => e.eid == i) else cc q

/-- In-place mutation of gate `i`'s `is_open` field at cell `p`. -/
def setGateState (cc : Pos → List Entity) (p : Pos) (i : Nat) (o : Bool) :
    Pos → List Entity :=
  fun q =>
    if q = p then
      (cc q).map fun e =>
        match e with
        | .gate j b => if j = i then .gate i o else .gate j b
        | e => e
    else cc q

/-- The effect branch of `TacticalAgent.step` for one chosen action. -/
def applyAction (w : World) (a : AgentState) : Action → World × AgentState
  | .move np => (w, { a with pos := np })
  | .rescue i =>
    ({ w with cellContents := removeEntity w.cellContents a.pos i },
      { a with carrying_hostage := true })
  | .investigate i =>
    ({ w with
        stats := { w.stats with false_alarms_investigated :=
          w.stats.false_alarms_investigated + 1 },
        cellContents := removeEntity w.cellContents a.pos i }, a)
  | .dropoff =>
    ({ w with stats := { w.stats with hostages_rescued :=
        w.stats.hostages_rescued + 1 } },
      { a with carrying_hostage := false })
  | .contain i =>
    ({ w with cellContents := removeEntity w.cellContents a.pos i }, a)
  | .openGate i =>
    ({ w with cellContents := setGateState w.cellContents a.pos i true }, a)
  | .closeGate i =>
    ({ w with cellContents := setGateState w.cellContents a.pos i false }, a)
  | .breakWall np =>
    ({ w with
        walls := break_wall_between w.walls a.pos np,
        stats := { w.stats with structural_damage :=
          w.stats.structural_damage + 1 } }, a)

/-- The `while self.action_points > 0` loop of `TacticalAgent.step`.
`rand` is the stream of `random.choice` draws, one per iteration, taken
modulo the candidate count.  The fuel argument only bounds recursion:
each applied action costs at least one point, so fuel `≥ action_points`
never cuts the loop short (`stepLoop_fuel_irrelevant` below).  The third
component counts loop iterations that applied an action. -/
def stepLoop : Nat → World → AgentState → List Nat →
    World × AgentState × Nat
  | 0, w, a, _ => (w, a, 0)
  | fuel + 1, w, a, rand =>
    if a.action_points = 0 then (w, a, 0)
    else
      let acts := possible_actions w a
      if acts.isEmpty then (w, a, 0)
      else
        let pa := acts.getD (rand.headD 0 % acts.length) default
        let wa := applyAction w a pa.1
        let a1 := { wa.2 with action_points := wa.2.action_points - pa.2 }
        let r := stepLoop fuel wa.1 a1 rand.tail
        (r.1, r.2.1, r.2.2 + 1)

/-- Embeds `TacticalAgent.step`: reset the budget to 4, then run the loop. -/
def agent_step (w : World) (a : AgentState) (rand : List Nat) :
    World × AgentState × Nat :=
  stepLoop 4 w { a with action_points := 4 } rand

/-! ### Outcome evaluator -/

/-- The result tags of `get_final_stats`. -/
inductive ResultTag where
  | timeUp
  | victory
  | defeatCasualties
  | defeatStructural
deriving DecidableEq, Repr

/-- Embeds `RescueModel.check_game_over`: clears `running` when any terminal
threshold is met, otherwise leaves it untouched. -/
def check_game_over (rescued lost damage : Nat) (running : Bool) : Bool :=
  if 7 ≤ rescued ∨ 4 ≤ lost ∨ 25 ≤ damage then false else running

/-- The `result` selection of `RescueModel.get_final_stats`. -/
def finalResult (rescued lost damage : Nat) : ResultTag :=
  if 7 ≤ rescued then .victory
  else if 4 ≤ lost then .defeatCasualties
  else if 25 ≤ damage then .defeatStructural
  else .timeUp

/-- Modelled from the spec: §6 exposes the termination thresholds
(rescue target, loss limit, damage limit) as configuration; the source
hardwires `7`, `4`, `25` inside `check_game_over`, so the configurable
variant exists only in the spec. -/
def check_game_over_cfg (rescueTarget lossLimit damageLimit
    rescued lost damage : Nat) (running : Bool) : Bool :=
  if rescueTarget ≤ rescued ∨ lossLimit ≤ lost ∨ damageLimit ≤ damage then
    false
  else running

/-- Modelled from the spec: the result tag under configurable
thresholds (§6); the source hardwires `7`, `4`, `25` in
`get_final_stats`. -/
def finalResult_cfg (rescueTarget lossLimit damageLimit
    rescued lost damage : Nat) : ResultTag :=
  if rescueTarget ≤ rescued then .victory
  else if lossLimit ≤ lost then .defeatCasualties
  else if damageLimit ≤ damage then .defeatStructural
  else .timeUp

/-! ### Fixed-grid setup (`setup_fixed_grid`)

The hard-coded scenario data.  The crucial point for reproducibility is
which random stream each draw consumes: `random.choice(...)` — the
module-global generator — places the agents and picks the initial gate
states; the run-scoped `self.random` is *not* consulted during setup. -/

/-- The hard-coded `grid_walls` strings, row by row. -/
def grid_walls : List (List String) :=
  [["1100", "1000", "1001", "1100", "1001", "1100", "1000", "1001"],
   ["0100", "0000", "0011", "0110", "0011", "0110", "0010", "0011"],
   ["0100", "0001", "1100", "1000", "1000", "1001", "1100", "1001"],
   ["0110", "0011", "0110", "0010", "0010", "0011", "0110", "0011"],
   ["1100", "1000", "1000", "1000", "1001", "1100", "1001", "1101"],
   ["0110", "0010", "0010", "0010", "0011", "0110", "0011", "0111"]]

/-- Decode one wall string: characters are top, left, bottom, right. -/
def parseWalls (s : String) : WallFlags :=
  let cs := s.toList
  { top := cs.getD 0 '0' = '1'
    left := cs.getD 1 '0' = '1'
    bottom := cs.getD 2 '0' = '1'
    right := cs.getD 3 '0' = '1' }

/-- The `self.walls` dictionary built by `setup_fixed_grid`: an entry
for every cell of the 8×6 grid, decoded from `grid_walls[row][col]`. -/
def setupWalls : WallMap := fun p =>
  if 0 ≤ p.1 ∧ p.1 < 8 ∧ 0 ≤ p.2 ∧ p.2 < 6 then
    some (parseWalls ((grid_walls.getD p.2.toNat []).getD p.1.toNat "0000"))
  else none

/-- The `entry_points_data` list, as `(row, col)` pairs. -/
def entry_points_data : List (Int × Int) := [(1, 6), (3, 1), (4, 8), (6, 3)]

/-- Computes `self.entry_points = [(c - 1, r - 1) for r, c in entry_points_data]`. -/
def setupEntryPoints : List Pos :=
  entry_points_data.map fun rc => (rc.2 - 1, rc.1 - 1)

/-- The `points_of_interest` list: `(row, col, kind)` with `'v'` a hostage and
`'f'` a false alarm. -/
def points_of_interest : List (Int × Int × Char) :=
  [(2, 5, 'v'), (5, 2, 'f'), (5, 8, 'v')]

/-- The `fire_markers` list: `(row, col)` cells seeded with a mild disturbance. -/
def fire_markers : List (Int × Int) :=
  [(2, 2), (2, 3), (3, 2), (3, 3), (3, 4), (3, 5), (4, 4), (5, 6), (5, 7),
   (6, 6)]

/-- The `doors` list: `(r1, c1, r2, c2)`; a `Gate` is placed at `(c1-1, r1-1)`. -/
def doors : List (Int × Int × Int × Int) :=
  [(1, 3, 1, 4), (2, 5, 2, 6), (2, 8, 3, 8), (3, 2, 3, 3), (4, 4, 5, 4),
   (4, 6, 4, 7), (6, 5, 6, 6), (6, 7, 6, 8)]

/-- Everything `setup_fixed_grid` derives from its random draws plus the
fixed placement lists (cells already converted to `(x, y)`). -/
structure SetupResult where
  agentStartCells : List Pos
  hostageCells : List Pos
  falseAlarmCells : List Pos
  fireCells : List Pos
  gateCells : List Pos
  gateStates : List Bool
  entryPoints : List Pos
deriving DecidableEq, Repr

/-- Models `random.choice(xs)` on an index draw `k`. -/
def pyChoice (xs : List Pos) (k : Nat) : Pos := xs.getD (k % xs.length) (0, 0)

/-- Embeds `setup_fixed_grid`.  Here `globalDraws` is the module-global `random`
stream (consumed in source order: six `random.choice(self.entry_points)`
calls for agent placement, then eight `random.choice([True, False])`
calls for gate states, the latter modelled as index mod 2, index 0 being
`True`).  `scopedDraws` is the run-scoped `self.random` stream; the
source never consults it during setup, and accordingly it is unused. -/
def setup_fixed_grid (globalDraws scopedDraws : List Nat) : SetupResult :=
  let _ := scopedDraws
  let eps := setupEntryPoints
  { agentStartCells :=
      (List.range 6).map fun i => pyChoice eps (globalDraws.getD i 0)
    hostageCells :=
      (points_of_interest.filter fun rck => rck.2.2 = 'v').map fun rck =>
        (rck.2.1 - 1, rck.1 - 1)
    falseAlarmCells :=
      (points_of_interest.filter fun rck => rck.2.2 = 'f').map fun rck =>
        (rck.2.1 - 1, rck.1 - 1)
    fireCells := fire_markers.map fun rc => (rc.2 - 1, rc.1 - 1)
    gateCells := doors.map fun d => (d.2.1 - 1, d.1 - 1)
    gateStates :=
      (List.range 8).map fun i =>
        [true, false].getD (globalDraws.getD (6 + i) 0 % 2) true
    entryPoints := eps }

/-! ### One engine turn for a single-agent scenario -/

/-- Embeds `RescueModel.advance_disturbances`: escalate every cell of the
`cell_contents` dictionary (whose insertion-ordered key list is `keys`),
then with the 5% draw `spawnDraw` pick an available cell and seed a mild
disturbance there if it has none.  `spawnCells` is the retry stream of
`get_available_cell` (gates live in `cell_contents`, so checking the
item map matches `get_contents_at` for the closed-gate test). -/
def advance_disturbances (keys : List Pos) (cc : Pos → List Entity)
    (s : Stats) (nid : Nat) (spawnDraw : Bool) (spawnCells : List Pos) :
    (Pos → List Entity) × Stats × Nat :=
  let folded := keys.foldl
    (fun (acc : (Pos → List Entity) × Stats) p =>
      let r := advanceCellPass (acc.1 p) acc.2
      (fun q => if q = p then r.1 else acc.1 q, r.2))
    (cc, s)
  let cc1 := folded.1
  let s1 := folded.2
  if spawnDraw then
    match get_available_cell cc1 spawnCells with
    | some p =>
      if (cc1 p).any Entity.isDisturb then (cc1, s1, nid)
      else
        (fun q =>
          if q = p then cc1 q ++ [.disturbance (nid + 1) .mild 0]
          else cc1 q, s1, nid + 1)
    | none => (cc1, s1, nid)
  else (cc1, s1, nid)

/-- A running simulation with a single agent. -/
structure SimState where
  world : World
  agent : AgentState
  turn_counter : Nat
  running : Bool

/-- Embeds `RescueModel.step` for a one-agent model (the schedule's shuffle of
a single agent is a fixed point): bump `turn_counter`, run the agent's
step, advance the disturbances, then evaluate the terminal check.
Modelled from the spec: the terminal check takes the configurable
thresholds of §6, which the source hardwires to `(7, 4, 25)`;
instantiating `rT lL dL := 7 4 25` recovers `check_game_over`. -/
def model_step (rT lL dL : Nat) (keys : List Pos) (rand : List Nat)
    (spawnDraw : Bool) (spawnCells : List Pos) (st : SimState) : SimState :=
  let tc := st.turn_counter + 1
  let r := agent_step st.world st.agent rand
  let w1 := r.1
  let adv := advance_disturbances keys w1.cellContents w1.stats w1.nextId
    spawnDraw spawnCells
  let w2 := { w1 with
    cellContents := adv.1
    stats := adv.2.1
    nextId := adv.2.2 }
  { world := w2
    agent := r.2.1
    turn_counter := tc
    running := check_game_over_cfg rT lL dL w2.stats.hostages_rescued
      w2.stats.hostages_lost w2.stats.structural_damage st.running }

/-! ### Concrete fixtures used by witnesses and counterexamples -/

/-- A two-cell wall map with every flag set on both cells. -/
def wallsFixture : WallMap := fun p =>
  if p = ((0 : Int), (0 : Int)) then some ⟨true, true, true, true⟩
  else if p = ((1 : Int), (0 : Int)) then some ⟨true, true, true, true⟩
  else none

/-- A wall map whose only set flag is `right` on `(0, 0)`. -/
def wallsDiag : WallMap := fun p =>
  if p = ((0 : Int), (0 : Int)) then some ⟨false, false, false, true⟩
  else some ⟨false, false, false, false⟩

/-- A 1×1 scenario: one agent on the sole cell, a hostage there, the
cell is the only entry point, no walls, no hazards. -/
def world9 : World :=
  { width := 1
    height := 1
    walls := fun p =>
      if p = ((0 : Int), (0 : Int)) then some ⟨false, false, false, false⟩
      else none
    cellContents := fun p =>
      if p = ((0 : Int), (0 : Int)) then [Entity.hostage 10] else []
    entry_points := [(0, 0)]
    agents := []
    stats := ⟨0, 0, 0, 0⟩
    nextId := 10 }

/-- The agent of the small scenarios, starting on the hostage cell. -/
def agent9 : AgentState := ⟨1, (0, 0), 4, false⟩

/-- The 1×1 scenario as a running simulation. -/
def sim9 : SimState := ⟨world9, agent9, 0, true⟩

/-- One engine turn on the 1×1 scenario with spec-modelled thresholds
`(1, 99, 99)`: `rand` are the action draws, `spawnDraw` the 5% hazard
draw, and the spawn retry stream is the only one possible on a 1×1 grid
(every draw is the sole cell). -/
def turn9 (rand : List Nat) (spawnDraw : Bool) (n : Nat) : SimState :=
  model_step 1 99 99 [((0 : Int), (0 : Int))] rand spawnDraw
    (List.replicate (n + 1) ((0 : Int), (0 : Int))) sim9

/-- The same scenario on a 2×1 grid, so the agent can also move east. -/
def world9b : World :=
  { width := 2
    height := 1
    walls := fun _ => some ⟨false, false, false, false⟩
    cellContents := fun p =>
      if p = ((0 : Int), (0 : Int)) then [Entity.hostage 10] else []
    entry_points := [(0, 0)]
    agents := []
    stats := ⟨0, 0, 0, 0⟩
    nextId := 10 }

/-- The 2×1 scenario as a running simulation. -/
def sim9b : SimState := ⟨world9b, agent9, 0, true⟩

/-! ### Theorems -/

/-- C8: after every turn the terminal conditions are evaluated with the
priority rescued ≥ 7 → victory, else lost ≥ 4 → defeat by casualties,
else damage ≥ 25 → structural defeat, else the run continues (`running`
stays true), and `get_final_stats` reports its tag with that same
priority. -/
theorem check_and_result_priority (r l d : Nat) :
    (check_game_over r l d true = true ↔ ¬(7 ≤ r ∨ 4 ≤ l ∨ 25 ≤ d)) ∧
    (check_game_over r l d false = false) ∧
    (finalResult r l d = .victory ↔ 7 ≤ r) ∧
    (finalResult r l d = .defeatCasualties ↔ ¬7 ≤ r ∧ 4 ≤ l) ∧
    (finalResult r l d = .defeatStructural ↔ ¬7 ≤ r ∧ ¬4 ≤ l ∧ 25 ≤ d) ∧
    (finalResult r l d = .timeUp ↔ ¬7 ≤ r ∧ ¬4 ≤ l ∧ ¬25 ≤ d) := by
  simp only [check_game_over, finalResult]
  split_ifs <;> simp_all

set_option maxHeartbeats 1000000 in
/-- C7: on orthogonally adjacent cells both present in the wall map,
`break_wall_between` clears the facing flag on each side, changes no
other flag of any cell, leaves `has_wall_between` false in both
directions, and is idempotent. -/
theorem break_wall_between_spec (walls : WallMap) (p q : Pos)
    (w1 w2 : WallFlags) (h1 : walls p = some w1) (h2 : walls q = some w2)
    (hadj : q = (p.1 + 1, p.2) ∨ q = (p.1 - 1, p.2) ∨
      q = (p.1, p.2 + 1) ∨ q = (p.1, p.2 - 1)) :
    has_wall_between (break_wall_between walls p q) p q = false ∧
    has_wall_between (break_wall_between walls p q) q p = false ∧
    (∀ r, r ≠ p → r ≠ q → break_wall_between walls p q r = walls r) ∧
    (∃ w1n, break_wall_between walls p q p = some w1n ∧
      w1n.top = (if q = (p.1, p.2 - 1) then false else w1.top) ∧
      w1n.left = (if q = (p.1 - 1, p.2) then false else w1.left) ∧
      w1n.bottom = (if q = (p.1, p.2 + 1) then false else w1.bottom) ∧
      w1n.right = (if q = (p.1 + 1, p.2) then false else w1.right)) ∧
    (∃ w2n, break_wall_between walls p q q = some w2n ∧
      w2n.top = (if q = (p.1, p.2 + 1) then false else w2.top) ∧
      w2n.left = (if q = (p.1 + 1, p.2) then false else w2.left) ∧
      w2n.bottom = (if q = (p.1, p.2 - 1) then false else w2.bottom) ∧
      w2n.right = (if q = (p.1 - 1, p.2) then false else w2.right)) ∧
    break_wall_between (break_wall_between walls p q) p q =
      break_wall_between walls p q := by
  have hpq : p ≠ q := by
    rcases hadj with h | h | h | h <;>
      · subst h
        intro hc
        rcases p with ⟨x, y⟩
        simp only [Prod.mk.injEq] at hc
        omega
  rcases hadj with h | h | h | h <;>
    · subst h
      refine ⟨?_, ?_, ?_, ?_, ?_, ?_⟩ <;>
        simp_all [break_wall_between, has_wall_between, wallBlocks,
          clearFacing, clearOpposite, wallTop, wallLeft, wallBottom,
          wallRight, Prod.ext_iff, funext_iff]
      all_goals first
        | (intro a b hP hQ
           rw [if_neg fun hc => hQ hc.1 hc.2, if_neg fun hc => hP hc.1 hc.2])
        | (intro _; omega)

/-- The head of a filtered list is the first element satisfying the
predicate (`next(...)` in Python). -/
lemma head?_filter_eq_find? {α : Type} (p : α → Bool) (l : List α) :
    (l.filter p).head? = l.find? p := by
  induction l with
  | nil => rfl
  | cons a t ih =>
    by_cases h : p a <;> simp [List.filter_cons, List.find?_cons, h, ih]

/-- A closed gate is a gate. -/
lemma isGate_of_isClosedGate (e : Entity) (h : e.isClosedGate = true) :
    e.isGate = true := by
  cases e <;> simp_all [Entity.isClosedGate, Entity.isGate]

/-- Rewrites `can_move_to` as one boolean expression: in bounds, no facing wall
on the source, and the first gate of the destination (if any) open. -/
lemma can_move_to_eq (width height : Int) (walls : WallMap)
    (contents : Pos → List Entity) (fp tp : Pos) :
    can_move_to width height walls contents fp tp =
      ((0 ≤ tp.1 && tp.1 < width && 0 ≤ tp.2 && tp.2 < height) &&
        !wallBlocks walls fp tp &&
        !(((contents tp).filter Entity.isGate).head?.elim false
          Entity.isClosedGate)) := by
  unfold can_move_to
  cases hA : (0 ≤ tp.1 && tp.1 < width && 0 ≤ tp.2 && tp.2 < height) <;>
    cases hW : wallBlocks walls fp tp <;>
      simp only [hA, hW, Bool.not_false, Bool.not_true, if_true, if_false,
        Bool.false_and, Bool.true_and, Bool.and_false, Bool.and_true] <;>
      try simp
  rcases hH : List.find? Entity.isGate (contents tp) with _ | e
  · simp
  · rcases e with i | i | ⟨i, op⟩ | ⟨i, sev, t⟩ | i <;>
      try simp [Entity.isClosedGate]
    cases op <;> simp [Entity.isClosedGate]

/-- With at most one gate in a list, "the first gate is closed" is the
same as "some closed gate is present". -/
lemma firstGate_closed_iff (l : List Entity)
    (hg : (l.filter Entity.isGate).length ≤ 1) :
    ((l.filter Entity.isGate).head?.elim false Entity.isClosedGate = true ↔
      ∃ e ∈ l, e.isClosedGate = true) := by
  rcases hl : l.filter Entity.isGate with _ | ⟨g, gs⟩
  · simp only [hl, List.head?_nil, Option.elim]
    constructor
    · intro h
      exact absurd h (by simp)
    · rintro ⟨e, he, hce⟩
      have hmem : e ∈ l.filter Entity.isGate :=
        List.mem_filter.2 ⟨he, isGate_of_isClosedGate e hce⟩
      rw [hl] at hmem
      exact absurd hmem (List.not_mem_nil e)
  · have hgs : gs = [] := by
      have := hg
      rw [hl] at this
      simp at this
      exact this
    subst hgs
    simp only [hl, List.head?_cons, Option.elim]
    constructor
    · intro h
      have hgmem : g ∈ l.filter Entity.isGate := by
        rw [hl]; exact List.mem_cons_self g []
      exact ⟨g, (List.mem_filter.1 hgmem).1, h⟩
    · rintro ⟨e, he, hce⟩
      have hmem : e ∈ l.filter Entity.isGate :=
        List.mem_filter.2 ⟨he, isGate_of_isClosedGate e hce⟩
      rw [hl] at hmem
      rcases List.mem_singleton.1 hmem with rfl
      exact hce

/-- Complement form of `firstGate_closed_iff`. -/
lemma firstGate_open_iff (l : List Entity)
    (hg : (l.filter Entity.isGate).length ≤ 1) :
    ((l.filter Entity.isGate).head?.elim false Entity.isClosedGate = false ↔
      ¬∃ e ∈ l, e.isClosedGate = true) := by
  rw [Bool.eq_false_iff]
  exact not_congr (firstGate_closed_iff l hg)

/-- C1: with at most one gate at the destination (the configuration the
model maintains), `can_move_to` returns true exactly when the
destination is in bounds, the source's facing wall flag is clear, and
the destination holds no closed gate; it never reads any wall entry
other than the source's, and a set `right` flag forbids the eastward
move outright. -/
theorem can_move_to_spec (width height : Int) (walls : WallMap)
    (contents : Pos → List Entity) (fp tp : Pos)
    (hg : ((contents tp).filter Entity.isGate).length ≤ 1) :
    (can_move_to width height walls contents fp tp = true ↔
      (0 ≤ tp.1 ∧ tp.1 < width ∧ 0 ≤ tp.2 ∧ tp.2 < height) ∧
      has_wall_between walls fp tp = false ∧
      ¬∃ e ∈ contents tp, e.isClosedGate = true) ∧
    (∀ walls2 : WallMap, walls2 fp = walls fp →
      can_move_to width height walls2 contents fp tp =
        can_move_to width height walls contents fp tp) ∧
    (∀ wf, walls fp = some wf → wf.right = true → tp = (fp.1 + 1, fp.2) →
      can_move_to width height walls contents fp tp = false) := by
  refine ⟨?_, ?_, ?_⟩
  · rw [can_move_to_eq]
    simp only [Bool.and_eq_true, Bool.not_eq_true', decide_eq_true_eq,
      has_wall_between, firstGate_open_iff _ hg]
    tauto
  · intro walls2 hsame
    rw [can_move_to_eq, can_move_to_eq]
    have : wallBlocks walls2 fp tp = wallBlocks walls fp tp := by
      simp [wallBlocks, wallTop, wallLeft, wallBottom, wallRight, hsame]
    rw [this]
  · intro wf hwf hr htp
    subst htp
    rw [can_move_to_eq]
    have : wallBlocks walls fp (fp.1 + 1, fp.2) = true := by
      simp [wallBlocks, wallRight, hwf, hr]
    simp [this]

/-- Witness for C7: breaking the wall between `(0,0)` and `(1,0)` of the
fixture leaves no wall in either direction. -/
theorem break_wall_between_spec_witness :
    has_wall_between (break_wall_between wallsFixture (0, 0) (1, 0))
      (0, 0) (1, 0) = false ∧
    has_wall_between (break_wall_between wallsFixture (0, 0) (1, 0))
      (1, 0) (0, 0) = false :=
  ⟨(break_wall_between_spec wallsFixture (0, 0) (1, 0)
      ⟨true, true, true, true⟩ ⟨true, true, true, true⟩ (by decide)
      (by decide) (Or.inl (by decide))).1,
   (break_wall_between_spec wallsFixture (0, 0) (1, 0)
      ⟨true, true, true, true⟩ ⟨true, true, true, true⟩ (by decide)
      (by decide) (Or.inl (by decide))).2.1⟩

/-- Witness for C1: on the fixture the set `right` flag of `(0,0)`
forbids the eastward move. -/
theorem can_move_to_spec_witness :
    can_move_to 8 6 wallsFixture (fun _ => []) (0, 0) (1, 0) = false :=
  (can_move_to_spec 8 6 wallsFixture (fun _ => []) (0, 0) (1, 0)
    (by decide)).2.2 ⟨true, true, true, true⟩ (by decide) (by decide)
    (by decide)

/-- C10 counterexample: `(1,1)` is in bounds, holds no gate, and is not
an orthogonal neighbour of `(0,0)`, yet `can_move_to` rejects the move
because the diagonal offset still matches the `dx = 1` wall condition
on the source's `right` flag. -/
theorem can_move_to_diagonal_counterexample :
    (((1 : Int), (1 : Int)) ∉ neighbors 8 6 (0, 0)) ∧
    ((0 : Int) ≤ 1 ∧ (1 : Int) < 8 ∧ (0 : Int) ≤ 1 ∧ (1 : Int) < 6) ∧
    can_move_to 8 6 wallsDiag (fun _ => []) (0, 0) (1, 1) = false := by
  decide

/-- C10 amended: `can_move_to` performs no adjacency check, but its wall
conditions fire componentwise for any offset with `dx = ±1` or
`dy = ±1` (diagonals included).  Only for destinations whose offset has
`dx ∉ {1, -1}` and `dy ∉ {1, -1}` — e.g. the source cell itself or a
distant same-row cell — does it return true whenever the in-bounds
destination holds no closed gate. -/
theorem can_move_to_no_adjacency_check (width height : Int)
    (walls : WallMap) (contents : Pos → List Entity) (fp tp : Pos)
    (hb : 0 ≤ tp.1 ∧ tp.1 < width ∧ 0 ≤ tp.2 ∧ tp.2 < height)
    (hdx : tp.1 - fp.1 ≠ 1 ∧ tp.1 - fp.1 ≠ -1)
    (hdy : tp.2 - fp.2 ≠ 1 ∧ tp.2 - fp.2 ≠ -1)
    (hng : ∀ e ∈ contents tp, e.isClosedGate = false) :
    can_move_to width height walls contents fp tp = true := by
  rw [can_move_to_eq]
  have hwb : wallBlocks walls fp tp = false := by
    simp only [wallBlocks, Bool.or_eq_false_iff, Bool.and_eq_false_iff]
    refine ⟨⟨⟨?_, ?_⟩, ?_⟩, ?_⟩ <;>
      simp [beq_eq_false_iff_ne, hdx.1, hdx.2, hdy.1, hdy.2]
  have hgg : (((contents tp).filter Entity.isGate).head?.elim false
      Entity.isClosedGate) = false := by
    rcases hh : ((contents tp).filter Entity.isGate).head? with _ | e
    · rfl
    · have hmem : e ∈ (contents tp).filter Entity.isGate := by
        rcases hl : (contents tp).filter Entity.isGate with _ | ⟨a, t⟩
        · rw [hl] at hh; simp at hh
        · rw [hl] at hh
          simp only [List.head?_cons, Option.some.injEq] at hh
          exact hh ▸ List.mem_cons_self a t
      have := hng e (List.mem_filter.1 hmem).1
      simpa [Option.elim] using this
  rw [hwb, hgg]
  simp [hb.1, hb.2.1, hb.2.2.1, hb.2.2.2]

/-- Witness for the amended C10: moving "to" the source cell itself is
accepted (offset `(0,0)` matches no wall condition and there is no
gate). -/
theorem can_move_to_no_adjacency_check_witness :
    can_move_to 8 6 wallsDiag (fun _ => []) (0, 0) (0, 0) = true :=
  can_move_to_no_adjacency_check 8 6 wallsDiag (fun _ => []) (0, 0) (0, 0)
    (by decide) (by decide) (by decide) (by decide)

/-- C4 counterexample: a cell that is an entry point and holds an open
gate (and nothing else) snapshots as the gate code 9, not the entry
marker 6 — the source checks the gate before the entry point. -/
theorem cellCode_entry_gate_counterexample :
    cellCode [Entity.gate 1 true] true = 9 ∧
    cellCode [Entity.gate 1 true] true ≠ 6 := by
  decide

/-- C4 amended: the snapshot encodes the highest-priority occupant with
the priority agent > hostage > disturbance-by-severity > false alarm >
gate-by-open-state > entry point marker > empty; in particular an
entry-point cell holding a gate and nothing of higher priority shows
the gate code, not the entry marker. -/
theorem cellCode_priority (contents : List Entity) (isEntry : Bool) :
    ((∃ e ∈ contents, e.isAgent = true) → cellCode contents isEntry = 2) ∧
    (¬(∃ e ∈ contents, e.isAgent = true) →
      (∃ e ∈ contents, e.isHostage = true) →
      cellCode contents isEntry = 3) ∧
    (¬(∃ e ∈ contents, e.isAgent = true) →
      ¬(∃ e ∈ contents, e.isHostage = true) →
      (∀ i sev t,
        contents.find? Entity.isDisturb = some (.disturbance i sev t) →
        cellCode contents isEntry =
          (match sev with
            | .grave => 8
            | .active => 5
            | .mild => 4))) ∧
    (¬(∃ e ∈ contents, e.isAgent = true) →
      ¬(∃ e ∈ contents, e.isHostage = true) →
      ¬(∃ e ∈ contents, e.isDisturb = true) →
      (∃ e ∈ contents, e.isFalseAlarm = true) →
      cellCode contents isEntry = 7) ∧
    (¬(∃ e ∈ contents, e.isAgent = true) →
      ¬(∃ e ∈ contents, e.isHostage = true) →
      ¬(∃ e ∈ contents, e.isDisturb = true) →
      ¬(∃ e ∈ contents, e.isFalseAlarm = true) →
      (∀ i o, contents.find? Entity.isGate = some (.gate i o) →
        cellCode contents isEntry = if o then 9 else 10)) ∧
    (¬(∃ e ∈ contents, e.isAgent = true) →
      ¬(∃ e ∈ contents, e.isHostage = true) →
      ¬(∃ e ∈ contents, e.isDisturb = true) →
      ¬(∃ e ∈ contents, e.isFalseAlarm = true) →
      ¬(∃ e ∈ contents, e.isGate = true) →
      isEntry = true → cellCode contents isEntry = 6) ∧
    (¬(∃ e ∈ contents, e.isAgent = true) →
      ¬(∃ e ∈ contents, e.isHostage = true) →
      ¬(∃ e ∈ contents, e.isDisturb = true) →
      ¬(∃ e ∈ contents, e.isFalseAlarm = true) →
      ¬(∃ e ∈ contents, e.isGate = true) →
      isEntry = false → cellCode contents isEntry = 0) := by
  have hne : ∀ (p : Entity → Bool), ¬(∃ e ∈ contents, p e = true) →
      contents.any p = false := by
    intro p h
    rw [Bool.eq_false_iff]
    exact fun hc => h (List.any_eq_true.1 hc)
  refine ⟨?_, ?_, ?_, ?_, ?_, ?_, ?_⟩
  · intro h
    simp only [cellCode, List.any_eq_true.2 h, if_true]
  · intro h1 h2
    simp only [cellCode, hne _ h1, List.any_eq_true.2 h2, if_true,
      Bool.false_eq_true, if_false]
  · intro h1 h2 i sev t hfind
    have hsome : contents.any Entity.isDisturb = true :=
      List.any_eq_true.2 ⟨_, List.mem_of_find?_eq_some hfind,
        List.find?_some hfind⟩
    simp only [cellCode, hne _ h1, hne _ h2, hsome, if_true,
      Bool.false_eq_true, if_false, head?_filter_eq_find?, hfind]
    cases sev <;> rfl
  · intro h1 h2 h3 h4
    simp only [cellCode, hne _ h1, hne _ h2, hne _ h3,
      List.any_eq_true.2 h4, if_true, Bool.false_eq_true, if_false]
  · intro h1 h2 h3 h4 i o hfind
    have hsome : contents.any Entity.isGate = true :=
      List.any_eq_true.2 ⟨_, List.mem_of_find?_eq_some hfind,
        List.find?_some hfind⟩
    simp only [cellCode, hne _ h1, hne _ h2, hne _ h3, hne _ h4, hsome,
      if_true, Bool.false_eq_true, if_false, head?_filter_eq_find?, hfind]
    cases o <;> rfl
  · intro h1 h2 h3 h4 h5 hE
    simp only [cellCode, hne _ h1, hne _ h2, hne _ h3, hne _ h4, hne _ h5,
      hE, if_true, Bool.false_eq_true, if_false]
  · intro h1 h2 h3 h4 h5 hE
    simp only [cellCode, hne _ h1, hne _ h2, hne _ h3, hne _ h4, hne _ h5,
      hE, Bool.false_eq_true, if_false]

/-- Witness for the amended C4: an entry-point cell holding only a
closed gate snapshots as the closed-gate code 10. -/
theorem cellCode_priority_witness :
    cellCode [Entity.gate 2 false] true = 10 := by
  simpa using (cellCode_priority [Entity.gate 2 false] true).2.2.2.2.1
    (by decide) (by decide) (by decide) (by decide) 2 false rfl

/-- Mapping a function that fixes every `p`-element and preserves `p`
commutes out of a `p`-filter. -/
lemma filter_map_invariant {α : Type} (p : α → Bool) (f : α → α)
    (hp : ∀ x, p (f x) = p x) (hid : ∀ x, p x = true → f x = x)
    (l : List α) : (l.map f).filter p = l.filter p := by
  induction l with
  | nil => rfl
  | cons a t ih =>
    by_cases h : p a = true
    · simp [List.filter_cons, hp, h, hid a h, ih]
    · rw [Bool.not_eq_true] at h
      simp [List.filter_cons, hp, h, ih]

/-- Updating a disturbance with `setDisturb` leaves the hostages of a cell alone. -/
lemma setDisturb_filter_isHostage (c : List Entity) (i : Nat)
    (sev : Severity) (t : Nat) :
    (setDisturb c i sev t).filter Entity.isHostage =
      c.filter Entity.isHostage := by
  unfold setDisturb
  refine filter_map_invariant _ _ ?_ ?_ c
  · intro x
    rcases x with j | j | ⟨j, o⟩ | ⟨j, sv, u⟩ | j
    · rfl
    · rfl
    · rfl
    · show Entity.isHostage (if j = i then Entity.disturbance i sev t
        else Entity.disturbance j sv u) = _
      split <;> rfl
    · rfl
  · intro x hx
    rcases x with j | j | ⟨j, o⟩ | ⟨j, sv, u⟩ | j <;>
      simp_all [Entity.isHostage]

/-- C2: in a cell whose only disturbance is active and has sat in that
state for at least five turns, the advance pass increments the counter
to ≥ 6, sets the severity to grave and immediately explodes: the whole
pass equals `handle_explosion` on the contents with the escalated
disturbance, structural damage rises by exactly one, every hostage of
the cell is lost (counted once each) and destroyed, and every
disturbance of the cell — the escalated one included — is destroyed. -/
theorem advance_explosion_spec (contents : List Entity) (s : Stats)
    (i t : Nat) (hids : disturbIds contents = [i])
    (hlook : lookupDisturb contents i = some (.active, t)) (ht : 5 ≤ t) :
    advanceCellPass contents s =
      handle_explosion (setDisturb contents i .grave (t + 1)) s ∧
    (∀ e ∈ (advanceCellPass contents s).1,
      e.isHostage = false ∧ e.isDisturb = false) ∧
    (advanceCellPass contents s).2.structural_damage =
      s.structural_damage + 1 ∧
    (advanceCellPass contents s).2.hostages_lost =
      s.hostages_lost + (contents.filter Entity.isHostage).length ∧
    (advanceCellPass contents s).2.hostages_rescued =
      s.hostages_rescued ∧
    (advanceCellPass contents s).2.false_alarms_investigated =
      s.false_alarms_investigated := by
  have h6 : 6 ≤ t + 1 := by omega
  have key : advanceCellPass contents s =
      handle_explosion (setDisturb contents i .grave (t + 1)) s := by
    unfold advanceCellPass
    rw [hids]
    unfold advanceLoop
    simp only [readDisturb, hlook]
    rw [if_neg (by simp), if_pos (show True ∧ 6 ≤ t + 1 from ⟨trivial, h6⟩)]
    simp only [writeDisturb, hlook]
    unfold advanceLoop
    rfl
  refine ⟨key, ?_, ?_, ?_, ?_, ?_⟩ <;> rw [key]
  · intro e he
    unfold handle_explosion at he
    simp only [List.mem_filter, Bool.not_eq_true', Bool.or_eq_false_iff]
      at he
    exact he.2
  · simp [handle_explosion]
  · simp [handle_explosion, setDisturb_filter_isHostage]
  · simp [handle_explosion]
  · simp [handle_explosion]

/-- Witness for C2: a hostage and a ripe active disturbance share a
cell; the pass destroys both, adds one damage, and loses one hostage. -/
theorem advance_explosion_spec_witness :
    (advanceCellPass [Entity.hostage 7, Entity.disturbance 3 .active 5]
      ⟨0, 0, 0, 0⟩).2.structural_damage = 1 ∧
    (advanceCellPass [Entity.hostage 7, Entity.disturbance 3 .active 5]
      ⟨0, 0, 0, 0⟩).2.hostages_lost = 1 := by
  have h := advance_explosion_spec
    [Entity.hostage 7, Entity.disturbance 3 .active 5] ⟨0, 0, 0, 0⟩ 3 5
    (by decide) (by decide) (by decide)
  exact ⟨by simpa using h.2.2.1, by simpa using h.2.2.2.1⟩

/-- C5: when every cell holds a closed gate, `get_available_cell` never
returns — every draw of the stream is rejected, so the `while True`
retry loop runs forever and the spawn step of `advance_disturbances`
never completes, instead of the no-op the spec requires. -/
theorem get_available_cell_all_closed (draws : List Pos) :
    get_available_cell (fun _ => [Entity.gate 0 false]) draws = none := by
  induction draws with
  | nil => rfl
  | cons p rest ih =>
    simpa [get_available_cell, Entity.isClosedGate] using ih

/-- C3 counterexample: two runs whose run-scoped stream is identical but
whose module-global stream differs produce different setups — the
global draws alone fix the agent placements and the gate states, so a
fixed run-scoped seed does not reproduce the run. -/
theorem setup_global_randomness_counterexample :
    setup_fixed_grid (List.replicate 14 0) [] ≠
      setup_fixed_grid (List.replicate 14 1) [] := by
  decide

/-- C3 amended: setup-time randomness (agent placement at entry points,
initial gate open/closed states) is drawn from the module-global
`random` stream, not the run-scoped source: the setup result is
invariant under the run-scoped stream yet genuinely depends on the
global one.  Only in-run draws (turn order, action selection, hazard
spawning) go through the run-scoped source, so reproducibility requires
fixing both streams. -/
theorem setup_uses_global_randomness (g s1 s2 : List Nat) :
    setup_fixed_grid g s1 = setup_fixed_grid g s2 ∧
    ¬∀ g1 g2 : List Nat, setup_fixed_grid g1 [] = setup_fixed_grid g2 [] := by
  refine ⟨rfl, fun hall => ?_⟩
  exact absurd (hall (List.replicate 14 0) (List.replicate 14 1)) (by decide)

/-- The element `getD` returns at an in-range index is in the list. -/
lemma getD_mem_of_lt {α : Type} (l : List α) (k : Nat) (d : α)
    (h : k < l.length) : l.getD k d ∈ l := by
  rw [List.getD_eq_getElem?_getD, List.getElem?_eq_getElem h,
    Option.getD_some]
  exact List.getElem_mem h

/-- Every candidate of `possible_actions` costs at least 1 and no more
than the agent's remaining budget. -/
lemma possible_actions_cost_bounds (w : World) (a : AgentState) :
    ∀ pa ∈ possible_actions w a, 1 ≤ pa.2 ∧ pa.2 ≤ a.action_points := by
  intro pa hm
  simp only [possible_actions, List.mem_append] at hm
  rcases hm with ((((((hm | hm) | hm) | hm) | hm) | hm) | hm)
  · simp only [moveActions, List.mem_filterMap] at hm
    obtain ⟨np, hnp, hf⟩ := hm
    split_ifs at hf with h1 h2
    · rw [Option.some_inj] at hf
      subst hf
      exact ⟨by unfold moveCostTo; split <;> omega, h2⟩
  · unfold rescueActions at hm
    split at hm
    · exact absurd hm (List.not_mem_nil pa)
    · split at hm
      · split_ifs at hm with h2
        · rw [List.mem_singleton] at hm
          subst hm
          exact ⟨by omega, h2⟩
        · exact absurd hm (List.not_mem_nil pa)
      · exact absurd hm (List.not_mem_nil pa)
  · unfold investigateActions at hm
    split at hm
    · split_ifs at hm with h2
      · rw [List.mem_singleton] at hm
        subst hm
        exact ⟨by omega, h2⟩
      · exact absurd hm (List.not_mem_nil pa)
    · exact absurd hm (List.not_mem_nil pa)
  · unfold dropoffActions at hm
    split_ifs at hm with h
    · rw [List.mem_singleton] at hm
      subst hm
      exact ⟨by omega, h.2.2⟩
    · exact absurd hm (List.not_mem_nil pa)
  · unfold containActions at hm
    split at hm
    · split_ifs at hm with h2
      · rw [List.mem_singleton] at hm
        subst hm
        exact ⟨by omega, h2⟩
      · exact absurd hm (List.not_mem_nil pa)
    · split_ifs at hm with h2
      · rw [List.mem_singleton] at hm
        subst hm
        exact ⟨by omega, h2⟩
      · exact absurd hm (List.not_mem_nil pa)
    · exact absurd hm (List.not_mem_nil pa)
  · unfold gateActions at hm
    split at hm
    · split_ifs at hm with h2
      · rw [List.mem_singleton] at hm
        subst hm
        exact ⟨Nat.le_refl 1, h2⟩
      · rw [List.mem_singleton] at hm
        subst hm
        exact ⟨Nat.le_refl 1, h2⟩
      · exact absurd hm (List.not_mem_nil pa)
    · exact absurd hm (List.not_mem_nil pa)
  · unfold breakActions at hm
    split_ifs at hm with h2
    · simp only [List.mem_filterMap] at hm
      obtain ⟨np, hnp, hf⟩ := hm
      split_ifs at hf
      · rw [Option.some_inj] at hf
        subst hf
        exact ⟨by omega, h2⟩
    · exact absurd hm (List.not_mem_nil pa)

/-- Applying an action never touches `action_points`; only the final
deduction in the loop does. -/
lemma applyAction_action_points (w : World) (a : AgentState)
    (act : Action) : (applyAction w a act).2.action_points =
      a.action_points := by
  cases act <;> rfl

/-- Loop invariant: `action_points` never increases across the loop and
bounds the number of applied actions. -/
lemma stepLoop_bounds (fuel : Nat) :
    ∀ (w : World) (a : AgentState) (rand : List Nat),
      (stepLoop fuel w a rand).2.1.action_points ≤ a.action_points ∧
      (stepLoop fuel w a rand).2.2 ≤ a.action_points := by
  induction fuel with
  | zero =>
    intro w a rand
    simp [stepLoop]
  | succ fuel ih =>
    intro w a rand
    by_cases h0 : a.action_points = 0
    · simp [stepLoop, h0]
    · by_cases hE : (possible_actions w a).isEmpty = true
      · simp [stepLoop, h0, hE]
      · have hlen : 0 < (possible_actions w a).length := by
          rcases hl : possible_actions w a with _ | ⟨x, xs⟩
          · rw [hl] at hE
            simp at hE
          · simp
        set PA := (possible_actions w a).getD
          (rand.headD 0 % (possible_actions w a).length) default with hPA
        have hmem : PA ∈ possible_actions w a :=
          getD_mem_of_lt _ _ _ (Nat.mod_lt _ hlen)
        have hcost := possible_actions_cost_bounds w a _ hmem
        set W1 := (applyAction w a PA.1).1 with hW1
        set A1 := { (applyAction w a PA.1).2 with action_points :=
          (applyAction w a PA.1).2.action_points - PA.2 } with hA1
        have hstep : stepLoop (fuel + 1) w a rand =
            ((stepLoop fuel W1 A1 rand.tail).1,
              (stepLoop fuel W1 A1 rand.tail).2.1,
              (stepLoop fuel W1 A1 rand.tail).2.2 + 1) := by
          rw [stepLoop, if_neg h0, if_neg hE]
        obtain ⟨hr1, hr2⟩ := ih W1 A1 rand.tail
        have hap : A1.action_points = a.action_points - PA.2 := by
          show (applyAction w a PA.1).2.action_points - PA.2 = _
          rw [applyAction_action_points]
        rw [hap] at hr1 hr2
        rw [hstep]
        exact ⟨le_trans hr1 (by omega),
          show (stepLoop fuel W1 A1 rand.tail).2.2 + 1 ≤ a.action_points
            by omega⟩

/-- C6: every candidate action's cost lies in `[1, action_points]` at
selection time; the step resets the budget to 4 and runs the loop from
it; the final budget is in `[0, 4]`; at most 4 actions are applied per
turn; and across any run of the loop the budget never increases. -/
theorem action_points_budget (w : World) (a : AgentState)
    (rand : List Nat) :
    (∀ pa ∈ possible_actions w a, 1 ≤ pa.2 ∧ pa.2 ≤ a.action_points) ∧
    agent_step w a rand = stepLoop 4 w { a with action_points := 4 } rand ∧
    (agent_step w a rand).2.1.action_points ≤ 4 ∧
    (agent_step w a rand).2.2 ≤ 4 ∧
    (∀ (fuel : Nat) (w2 : World) (a2 : AgentState) (r2 : List Nat),
      (stepLoop fuel w2 a2 r2).2.1.action_points ≤ a2.action_points) :=
  ⟨possible_actions_cost_bounds w a, rfl,
    (stepLoop_bounds 4 w { a with action_points := 4 } rand).1,
    (stepLoop_bounds 4 w { a with action_points := 4 } rand).2,
    fun fuel w2 a2 r2 => (stepLoop_bounds fuel w2 a2 r2).1⟩

/-- Witness for C6 on the 1×1 scenario: the sole candidate (rescue,
cost 2) satisfies the bounds, and a run of the step applies at most 4
actions. -/
theorem action_points_budget_witness :
    (1 ≤ (Action.rescue 10, 2).2 ∧
      (Action.rescue 10, 2).2 ≤ agent9.action_points) ∧
    (agent_step world9 agent9 []).2.2 ≤ 4 :=
  ⟨(action_points_budget world9 agent9 []).1 (Action.rescue 10, 2)
      (by decide),
    (action_points_budget world9 agent9 []).2.2.2.1⟩

/-- C9 counterexample: in the 2×1 instance of the scenario (thresholds
spec-modelled as `(1, 99, 99)` since the source hardwires `(7, 4, 25)`),
the seed whose action draws all read 0 makes the agent shuttle between
the two cells without ever rescuing: after the turn no hostage is
rescued, the run is still running, and `turn_counter = 1` — not the
victory the claim promises for every seed. -/
theorem scenario_not_always_victory :
    (model_step 1 99 99 [((0 : Int), (0 : Int))] [0, 0, 0, 0] false []
      sim9b).running = true ∧
    (model_step 1 99 99 [((0 : Int), (0 : Int))] [0, 0, 0, 0] false []
      sim9b).world.stats.hostages_rescued = 0 ∧
    (model_step 1 99 99 [((0 : Int), (0 : Int))] [0, 0, 0, 0] false []
      sim9b).turn_counter = 1 := by
  decide

/-- On the 1×1 scenario the action lists are singletons at every
iteration (`choice` over one candidate), so the turn is the same for
every seed: rescue (2 points), then drop off (1 point), then stop. -/
lemma agent_step_world9_eval (rand : List Nat) :
    (agent_step world9 agent9 rand).1.stats = ⟨1, 0, 0, 0⟩ ∧
    (agent_step world9 agent9 rand).1.cellContents ((0 : Int), (0 : Int)) =
      [] ∧
    (agent_step world9 agent9 rand).1.nextId = 10 ∧
    (agent_step world9 agent9 rand).2.1.action_points = 1 ∧
    (agent_step world9 agent9 rand).2.1.carrying_hostage = false ∧
    (agent_step world9 agent9 rand).2.2 = 2 := by
  simp [agent_step, stepLoop, possible_actions, moveActions,
    rescueActions, investigateActions, dropoffActions, containActions,
    gateActions, breakActions, neighbors, contentsAt, world9, agent9,
    can_move_to, wallBlocks, wallRight, wallLeft, wallTop, wallBottom,
    moveCostTo, applyAction, removeEntity, Nat.mod_one,
    Entity.isHostage, Entity.isFalseAlarm, Entity.isGate,
    Entity.isDisturb, Entity.isAgent, Entity.eid, List.filter_cons,
    List.eraseP]

/-- C9 amended: in the instance of the scenario whose start cell offers
no other action (1×1 grid, no walls) — and with the thresholds
`(1, 99, 99)` spec-modelled, since the source hardwires `(7, 4, 25)` —
every seed forces rescue (2 points) then drop-off (1 point) in the same
turn, the run ends in victory, and `turn_counter = 1`.  On grids where
the scenario admits movement the for-every-seed claim fails
(`scenario_not_always_victory`). -/
theorem scenario_forced_victory (rand : List Nat) (spawnDraw : Bool)
    (n : Nat) :
    (turn9 rand spawnDraw n).running = false ∧
    (turn9 rand spawnDraw n).world.stats = ⟨1, 0, 0, 0⟩ ∧
    (turn9 rand spawnDraw n).turn_counter = 1 ∧
    finalResult_cfg 1 99 99
      (turn9 rand spawnDraw n).world.stats.hostages_rescued
      (turn9 rand spawnDraw n).world.stats.hostages_lost
      (turn9 rand spawnDraw n).world.stats.structural_damage = .victory ∧
    (agent_step world9 agent9 rand).2.1.action_points = 1 ∧
    (agent_step world9 agent9 rand).2.2 = 2 := by
  obtain ⟨h1, h2, h3, h4, h5, h6⟩ := agent_step_world9_eval rand
  rw [Prod.mk_zero_zero] at h2
  unfold turn9 model_step advance_disturbances
  cases spawnDraw <;>
    simp [sim9, h1, h2, h3, h4, h5, h6, advanceCellPass, advanceLoop,
      disturbIds, get_available_cell, List.replicate, check_game_over_cfg,
      finalResult_cfg, Entity.isClosedGate, Entity.isDisturb]

end RescueSim
